import Mathlib

/-!
Shallow embedding of the node-event-throttler engine.

Timestamps, counters and token counts are JavaScript numbers in the source;
they are modelled as exact rationals (ℚ).  SHA-256 digests are modelled by
injective string functions, since the verified properties only depend on
digest equality.  The in-process `Map`/`Set` pair of `InMemoryAdapter` is
modelled by association lists with unique keys, and the Redis hashes,
sorted set and size counter of the distributed adapter by a small record
of association lists.
-/

set_option maxHeartbeats 1000000

/-- Outcome tag returned by every strategy and by the adapters. -/
inductive Outcome where
  | immediate
  | deferred
  | ignored
deriving DecidableEq, Repr

/-- Reason attached to an `ignored` outcome at the engine boundary. -/
inductive IgnoreReason where
  | alreadyDeferred
  | keyLimitReached
deriving DecidableEq, Repr

/-- The event data assembled by `EventTracker.trackEvent` and handed to the
adapter: category, id, the (serialised) details payload and its hash. -/
structure EventData where
  category : String
  id : String
  details : String
  detailsHash : String
deriving DecidableEq, Repr

/-- The frozen tracker-level configuration (`this.config` in `index.js`). -/
structure TrackerConfig where
  limit : ℚ
  deferInterval : ℚ
  expireTime : ℚ
  maxKeys : ℚ
deriving DecidableEq, Repr

/-- Per-record config snapshot.  A JavaScript record config only carries the
fields its strategy wrote; unused fields default to 0 and are never read on
records reachable under their own strategy. -/
structure RecordConfig where
  limit : ℚ := 0
  deferInterval : ℚ := 0
  bucketSize : ℚ := 0
  refillRate : ℚ := 0
  windowSize : ℚ := 0
deriving DecidableEq, Repr

/-- Strategy-specific auxiliary state (`strategyData`). -/
inductive StrategyData where
  | empty
  | tokenBucket (tokens : ℚ) (lastRefill : ℚ)
  | slidingWindow (currentCount : ℚ) (previousCount : ℚ) (windowStart : ℚ)
deriving DecidableEq, Repr

/-- The event record (`EventRecord` typedef of `storage/BaseAdapter.js`). -/
structure EventRecord where
  key : String
  category : String
  id : String
  details : String
  detailsHash : String
  count : ℚ
  lastEventTime : ℚ
  expiresAt : ℚ
  deferred : Bool
  scheduledSendAt : Option ℚ
  config : RecordConfig
  strategyData : StrategyData
deriving DecidableEq, Repr

/-- `BaseStrategy._createBaseRecord`: the fields shared by every new record. -/
def createBaseRecord (ev : EventData) (key : String) (now expireTime : ℚ) : EventRecord :=
  { key := key
    category := ev.category
    id := ev.id
    details := ev.details
    detailsHash := ev.detailsHash
    count := 1
    lastEventTime := now
    expiresAt := now + expireTime
    deferred := false
    scheduledSendAt := none
    config := {}
    strategyData := .empty }

/-- `SimpleCounterStrategy.track`. -/
def simpleCounterTrack (g : TrackerConfig) (prior : Option EventRecord) (ev : EventData)
    (key : String) (now : ℚ) : Outcome × EventRecord :=
  match prior with
  | none =>
      let cfg : RecordConfig := { limit := g.limit, deferInterval := g.deferInterval }
      let r := { createBaseRecord ev key now g.expireTime with config := cfg }
      if r.count > cfg.limit then
        (.deferred, { r with deferred := true, scheduledSendAt := some (now + cfg.deferInterval) })
      else
        (.immediate, r)
  | some r0 =>
      if r0.deferred then
        (.ignored, { r0 with expiresAt := now + g.expireTime })
      else
        let r := { r0 with
          count := r0.count + 1
          lastEventTime := now
          expiresAt := now + g.expireTime }
        if r.count > r.config.limit then
          (.deferred, { r with deferred := true, scheduledSendAt := some (now + r.config.deferInterval) })
        else
          (.immediate, r)

/-- Instance options of `TokenBucketStrategy`. -/
structure TokenBucketOptions where
  bucketSize : ℚ := 10
  refillRate : ℚ := 1
deriving DecidableEq, Repr

/-- `TokenBucketStrategy.track`. -/
def tokenBucketTrack (opts : TokenBucketOptions) (g : TrackerConfig)
    (prior : Option EventRecord) (ev : EventData) (key : String) (now : ℚ) :
    Outcome × EventRecord :=
  match prior with
  | none =>
      let cfg : RecordConfig :=
        { bucketSize := opts.bucketSize, refillRate := opts.refillRate,
          deferInterval := g.deferInterval }
      (.immediate,
       { createBaseRecord ev key now g.expireTime with
         config := cfg
         strategyData := .tokenBucket (cfg.bucketSize - 1) now })
  | some r0 =>
      match r0.strategyData with
      | .tokenBucket tokens lastRefill =>
          let cfg := r0.config
          let elapsedMs := now - lastRefill
          let tokensToAdd := (elapsedMs / 1000) * cfg.refillRate
          let currentTokens := min cfg.bucketSize (tokens + tokensToAdd)
          if currentTokens ≥ 1 then
            (.immediate,
             { r0 with
               strategyData := .tokenBucket (currentTokens - 1) now
               count := r0.count + 1
               lastEventTime := now
               expiresAt := now + g.expireTime
               deferred := false
               scheduledSendAt := none })
          else
            let timeToNextTokenMs := (1 - currentTokens) * (1000 / cfg.refillRate)
            (.deferred,
             { r0 with
               strategyData := .tokenBucket currentTokens now
               deferred := true
               lastEventTime := now
               expiresAt := now + g.expireTime
               scheduledSendAt := some (now + max timeToNextTokenMs 1) })
      | _ =>
          -- In the source, destructuring `strategyData` of a record written by a
          -- different strategy yields undefined and poisons the arithmetic with
          -- NaN; such records are unreachable because a tracker is bound to one
          -- strategy.  This arm is never exercised by any theorem below.
          (.ignored, r0)

/-- Instance options of `SlidingWindowStrategy`. -/
structure SlidingWindowOptions where
  limit : ℚ := 10
  windowSize : ℚ := 60000
deriving DecidableEq, Repr

/-- Truncation toward zero, as used by the JavaScript `%` operator. -/
def truncQ (q : ℚ) : Int := if q < 0 then q.ceil else q.floor

/-- The JavaScript remainder operator on numbers. -/
def jsRem (a b : ℚ) : ℚ := a - b * (truncQ (a / b) : ℚ)

/-- The Lua `%` operator (floored modulo). -/
def luaMod (a b : ℚ) : ℚ := a - b * ((a / b).floor : ℚ)

/-- `SlidingWindowStrategy.track`. -/
def slidingWindowTrack (opts : SlidingWindowOptions) (g : TrackerConfig)
    (prior : Option EventRecord) (ev : EventData) (key : String) (now : ℚ) :
    Outcome × EventRecord :=
  match prior with
  | none =>
      let cfg : RecordConfig :=
        { limit := opts.limit, windowSize := opts.windowSize,
          deferInterval := g.deferInterval }
      (.immediate,
       { createBaseRecord ev key now g.expireTime with
         config := cfg
         strategyData := .slidingWindow 1 0 now })
  | some r0 =>
      let cfg := r0.config
      let state0 :=
        match r0.strategyData with
        | .slidingWindow c p w => (c, p, w)
        | _ => ((0 : ℚ), (0 : ℚ), now)
        -- The fallback arm mirrors the unreachable undefined-destructuring case;
        -- records written by this strategy always carry the slidingWindow shape.
      let currentCount0 := state0.1
      let previousCount0 := state0.2.1
      let windowStart0 := state0.2.2
      let elapsed := now - windowStart0
      let slid :=
        if elapsed ≥ cfg.windowSize then
          ((0 : ℚ),
           if elapsed ≥ cfg.windowSize * 2 then (0 : ℚ) else currentCount0,
           now - jsRem elapsed cfg.windowSize)
        else (currentCount0, previousCount0, windowStart0)
      let currentCount := slid.1
      let previousCount := slid.2.1
      let windowStart := slid.2.2
      let weight := (cfg.windowSize - (now - windowStart)) / cfg.windowSize
      let estimatedCount := currentCount + previousCount * weight
      if estimatedCount < cfg.limit then
        (.immediate,
         { r0 with
           count := ((estimatedCount + 1).floor : ℚ)
           lastEventTime := now
           expiresAt := now + g.expireTime
           deferred := false
           scheduledSendAt := none
           strategyData := .slidingWindow (currentCount + 1) previousCount windowStart })
      else
        (.deferred,
         { r0 with
           deferred := true
           lastEventTime := now
           expiresAt := now + g.expireTime
           scheduledSendAt := some (now + cfg.deferInterval)
           strategyData := .slidingWindow currentCount previousCount windowStart })

/-! ## String-keyed maps

Both the `Map` of `InMemoryAdapter` and the Redis keyspace are string-keyed
maps; they are modelled as association lists with unique keys. -/

def mapGet {α : Type} (m : List (String × α)) (k : String) : Option α :=
  (m.find? (fun p => p.1 == k)).map (fun p => p.2)

def mapHas {α : Type} (m : List (String × α)) (k : String) : Bool :=
  m.any (fun p => p.1 == k)

def mapSet {α : Type} (m : List (String × α)) (k : String) (v : α) :
    List (String × α) :=
  if mapHas m k then m.map (fun p => if p.1 == k then (k, v) else p)
  else m ++ [(k, v)]

/-! ## In-memory adapter -/

/-- The `Map` of `InMemoryAdapter`. -/
abbrev EventMap := List (String × EventRecord)

def setAdd (s : List String) (k : String) : List String :=
  if s.contains k then s else s ++ [k]

def setDelete (s : List String) (k : String) : List String :=
  s.filter (fun x => x != k)

/-- The in-memory store: the record map and the secondary deferred-key set. -/
structure Store where
  events : EventMap
  deferredKeys : List String
deriving DecidableEq, Repr

/-- A throttling strategy, as invoked by the in-memory adapter:
tracker config, prior record (or none), event data, composite key, now. -/
abbrev Strategy :=
  TrackerConfig → Option EventRecord → EventData → String → ℚ → Outcome × EventRecord

/-- The freshness rule applied by `InMemoryAdapter.track`: a stored record is
forced to `none` when expired or when the details hash changed. -/
def freshPrior (stored : Option EventRecord) (detailsHash : String) (now : ℚ) :
    Option EventRecord :=
  match stored with
  | some r => if decide (now > r.expiresAt) || r.detailsHash != detailsHash then none else some r
  | none => none

/-- Result shape of `InMemoryAdapter.track`. -/
structure TrackResult where
  outcome : Outcome
  record : Option EventRecord
  reason : Option IgnoreReason
deriving DecidableEq, Repr

/-- `InMemoryAdapter.track`. -/
def inMemoryTrack (strat : Strategy) (g : TrackerConfig) (st : Store) (key : String)
    (ev : EventData) (now : ℚ) : TrackResult × Store :=
  let record := freshPrior (mapGet st.events key) ev.detailsHash now
  if record.isNone && decide (0 < g.maxKeys) &&
      decide (g.maxKeys ≤ (st.events.length : ℚ)) && !(mapHas st.events key) then
    ({ outcome := .ignored, record := none, reason := some .keyLimitReached }, st)
  else
    let stepped := strat g record ev key now
    let updated := stepped.2
    let events := mapSet st.events key updated
    let deferredKeys :=
      if updated.deferred then setAdd st.deferredKeys key else setDelete st.deferredKeys key
    ({ outcome := stepped.1, record := some updated, reason := none },
     { events := events, deferredKeys := deferredKeys })

/-! ## Engine: trackEvent -/

/-- The three kinds of error the engine throws. -/
inductive JSErr where
  | typeError
  | rangeError
  | genericError
deriving DecidableEq, Repr

/-- A JavaScript value, as far as the argument validation observes it. -/
inductive JSVal where
  | str (s : String)
  | num (q : ℚ)
  | boolean (b : Bool)
  | nullV
  | undefV
deriving DecidableEq, Repr

/-- `EventTracker.generateCompositeKey`: type-checks the arguments, rejects
empty strings with a plain `Error`, and concatenates `category:id`.  SHA-256
of the concatenation is modelled by the concatenation itself (injective on
the reachable inputs). -/
def generateCompositeKey (category id : JSVal) : Except JSErr String :=
  match category, id with
  | .str c, .str i =>
      if c == "" || i == "" then .error .genericError
      else .ok (c ++ ":" ++ i)
  | _, _ => .error .typeError

/-- `EventTracker.generateDetailsHash`, modelled as the canonical
serialisation itself: the claims only depend on hash equality. -/
def generateDetailsHash (details : String) : String := details

/-- Result shape of `EventTracker.trackEvent`. -/
structure EngineResult where
  type : Outcome
  reason : Option IgnoreReason
  data : Option EventRecord
deriving DecidableEq, Repr

/-- The body of `EventTracker.trackEvent` after argument validation:
compute key and hash, call the adapter, and map the result (an adapter
`reason` means a null payload; a strategy-level ignore defaults the reason
to `already_deferred` and returns the updated record). -/
def trackEventRun (strat : Strategy) (g : TrackerConfig) (st : Store)
    (category id details : String) (now : ℚ) : EngineResult × Store :=
  let compositeKey := category ++ ":" ++ id
  let detailsHash := generateDetailsHash details
  let ev : EventData :=
    { category := category, id := id, details := details, detailsHash := detailsHash }
  let tracked := inMemoryTrack strat g st compositeKey ev now
  let tr := tracked.1
  match tr.outcome with
  | .ignored =>
      let ignoreReason := tr.reason.getD .alreadyDeferred
      ({ type := .ignored, reason := some ignoreReason,
         data := if tr.reason.isSome then none else tr.record }, tracked.2)
  | outcome => ({ type := outcome, reason := none, data := tr.record }, tracked.2)

/-- `EventTracker.trackEvent` including the argument validation performed by
`generateCompositeKey` (non-strings throw `TypeError`; empty strings throw a
plain `Error`). -/
def trackEvent (strat : Strategy) (g : TrackerConfig) (st : Store)
    (category id : JSVal) (details : String) (now : ℚ) :
    Except JSErr (EngineResult × Store) :=
  match category, id with
  | .str c, .str i =>
      if c == "" || i == "" then .error .genericError
      else .ok (trackEventRun strat g st c i details now)
  | _, _ => .error .typeError

/-! ## Engine: processDeferredEvents -/

/-- Lifecycle notifications and sleeps emitted by `processDeferredEvents`,
in emission order. -/
inductive Notif where
  | processed (r : EventRecord)
  | retry (attempt : Nat) (maxRetries : Nat) (delay : ℚ) (events : List EventRecord)
  | sleep (delay : ℚ)
  | processFailed (events : List EventRecord) (attempts : Nat)
  | errorNote
deriving DecidableEq, Repr

/-- Due-ness test of `findDueDeferred`/`popDueDeferred`: deferred, with a
truthy (non-null, non-zero) `scheduledSendAt` that has come due. -/
def isDue (r : EventRecord) (timestamp : ℚ) : Bool :=
  r.deferred &&
    (match r.scheduledSendAt with
     | some s => decide (s ≠ 0) && decide (s ≤ timestamp)
     | none => false)

/-- The deferred keys whose record is due, in deferred-set iteration order. -/
def dueKeys (st : Store) (timestamp : ℚ) : List String :=
  st.deferredKeys.filter (fun k =>
    match mapGet st.events k with
    | some r => isDue r timestamp
    | none => false)

/-- `InMemoryAdapter.findDueDeferred`. -/
def findDueDeferred (st : Store) (timestamp : ℚ) : List EventRecord :=
  (dueKeys st timestamp).filterMap (mapGet st.events)

/-- `InMemoryAdapter.popDueDeferred`: return the due records and delete them
from both the map and the deferred-key set. -/
def popDueDeferred (st : Store) (timestamp : ℚ) : List EventRecord × Store :=
  let ks := dueKeys st timestamp
  ((ks.filterMap (mapGet st.events)),
   { events := st.events.filter (fun p => !(ks.contains p.1))
     deferredKeys := st.deferredKeys.filter (fun k => !(ks.contains k)) })

/-- The retry loop of `processDeferredEvents`.  `proc attempt` tells whether
the processor call of that (0-indexed) attempt succeeds; the fuel starts at
`maxRetries + 1`, the number of loop iterations. -/
def retryLoop (proc : Nat → Bool) (maxRetries : Nat) (retryDelay : ℚ)
    (dueEvents : List EventRecord) : Nat → Nat → List Notif
  | _, 0 => [.processFailed dueEvents (maxRetries + 1), .errorNote]
  | attempt, fuel + 1 =>
      if proc attempt then dueEvents.map .processed
      else if attempt < maxRetries then
        .retry (attempt + 1) maxRetries (retryDelay * 2 ^ attempt) dueEvents ::
        .sleep (retryDelay * 2 ^ attempt) ::
        retryLoop proc maxRetries retryDelay dueEvents (attempt + 1) fuel
      else [.processFailed dueEvents (maxRetries + 1), .errorNote]

/-- `EventTracker.processDeferredEvents`: with no processor, a non-destructive
scan; otherwise pop the due events and run the retry loop.  Returns the
emitted notifications, the due events, and the resulting store. -/
def processDeferredEvents (proc : Option (Nat → Bool)) (maxRetries : Nat)
    (retryDelay : ℚ) (st : Store) (now : ℚ) :
    List Notif × List EventRecord × Store :=
  match proc with
  | none => ([], findDueDeferred st now, st)
  | some p =>
      let popped := popDueDeferred st now
      if popped.1.isEmpty then ([], popped.1, popped.2)
      else (retryLoop p maxRetries retryDelay popped.1 0 (maxRetries + 1), popped.1, popped.2)

/-! ## Engine: configuration validation -/

/-- A JavaScript value of type `number`, as the validator distinguishes it. -/
inductive JSNum where
  | fin (q : ℚ)
  | nan
  | posInf
  | negInf
deriving DecidableEq, Repr

/-- A supplied constructor option: absent, a number, or some non-number. -/
inductive OptionValue where
  | undef
  | num (n : JSNum)
  | nonNumber
deriving DecidableEq, Repr

/-- The `< 0` comparison of `_validateConfig` on a JavaScript number. -/
def jsNumLtZero : JSNum → Bool
  | .fin q => decide (q < 0)
  | .nan => false
  | .posInf => false
  | .negInf => true

/-- Per-field check of `EventTracker._validateConfig`: absent fields pass,
non-numbers and NaN throw `TypeError`, negative numbers throw `RangeError`. -/
def validateField : OptionValue → Option JSErr
  | .undef => none
  | .nonNumber => some .typeError
  | .num .nan => some .typeError
  | .num n => if jsNumLtZero n then some .rangeError else none

/-- The seven numeric constructor options checked by `_validateConfig`. -/
structure EngineOptions where
  limit : OptionValue := .undef
  deferInterval : OptionValue := .undef
  expireTime : OptionValue := .undef
  maxKeys : OptionValue := .undef
  processingInterval : OptionValue := .undef
  maxRetries : OptionValue := .undef
  retryDelay : OptionValue := .undef
deriving DecidableEq, Repr

/-- `EventTracker._validateConfig`: the first error over the fields in
declaration order, or none. -/
def validateConfig (o : EngineOptions) : Option JSErr :=
  (validateField o.limit).orElse fun _ =>
  (validateField o.deferInterval).orElse fun _ =>
  (validateField o.expireTime).orElse fun _ =>
  (validateField o.maxKeys).orElse fun _ =>
  (validateField o.processingInterval).orElse fun _ =>
  (validateField o.maxRetries).orElse fun _ =>
  validateField o.retryDelay

/-- `Math.max a n` on a JavaScript number, `a` a finite rational. -/
def jsMax (a : ℚ) : JSNum → JSNum
  | .fin q => .fin (max a q)
  | .nan => .nan
  | .posInf => .posInf
  | .negInf => .fin a

/-- The processing-interval resolution of the constructor:
`Math.max(MIN_PROCESSING_INTERVAL_MS, options.processingInterval ?? DEFAULT)`.
The `nonNumber` arm is unreachable after validation. -/
def resolveProcessingInterval : OptionValue → JSNum
  | .undef => .fin 10000
  | .num n => jsMax 10 n
  | .nonNumber => .nan

/-! ## Distributed adapter: the atomic track script -/

/-- Strategy type tag passed to the server-side script. -/
inductive StrategyType where
  | simple
  | tokenBucket
  | slidingWindow
deriving DecidableEq, Repr

/-- The record hash stored under `event-tracker:<key>`.  The stored string
fields are kept in their parsed form; `scheduledSendAt` is stored as a
number with 0 meaning unscheduled, as in the script. -/
structure RedisHash where
  key : String
  category : String
  id : String
  details : String
  detailsHash : String
  count : ℚ
  lastEventTime : ℚ
  expiresAt : ℚ
  deferred : Bool
  scheduledSendAt : ℚ
  strategyData : StrategyData
  config : String
deriving DecidableEq, Repr

abbrev RedisMap := List (String × RedisHash)

/-- ZADD on an association list keyed by member (upserts the score). -/
def zadd (s : List (String × ℚ)) (score : ℚ) (member : String) : List (String × ℚ) :=
  mapSet s member score

/-- ZREM on an association list keyed by member. -/
def zrem (s : List (String × ℚ)) (member : String) : List (String × ℚ) :=
  s.filter (fun p => p.1 != member)

/-- The distributed store: record hashes, the size counter and the
deferred sorted set, plus the per-key TTL in seconds set by EXPIREAT. -/
structure RedisState where
  records : RedisMap
  size : ℚ
  deferredSet : List (String × ℚ)
  ttlSeconds : List (String × ℚ)
deriving DecidableEq, Repr

/-- Return value of the track script as seen by `RedisAdapter.track`. -/
inductive RTrackReturn where
  | limitReached
  | tracked (outcome : Outcome) (count : ℚ) (scheduledSendAt : ℚ) (expiresAt : ℚ)
      (config : String) (strategyData : StrategyData)
deriving DecidableEq, Repr

/-- Outcome of one strategy arm of the track script: outcome tag, count,
deferred flag, scheduledSendAt and fresh strategyData. -/
structure RArmState where
  outcome : Outcome
  count : ℚ
  deferred : Bool
  scheduledSendAt : ℚ
  strategyData : StrategyData
deriving DecidableEq, Repr

/-- The `simple` arm of the track script. -/
def redisSimpleArm (limit deferInterval now : ℚ) (s : RArmState) : RArmState :=
  if s.deferred then { s with outcome := .ignored }
  else
    let count := s.count + 1
    if count > limit then
      { s with
        outcome := .deferred
        count := count
        deferred := true
        scheduledSendAt := now + deferInterval }
    else { s with count := count }

/-- The `token-bucket` arm of the track script. -/
def redisTokenBucketArm (bucketSize refillRate now : ℚ) (isNew : Bool)
    (existing : Option RedisHash) (s : RArmState) : RArmState :=
  let tokens0 :=
    if !isNew then
      match existing with
      | some h =>
          match h.strategyData with
          | .tokenBucket t lr => min bucketSize (t + ((now - lr) / 1000) * refillRate)
          | _ => bucketSize
          -- With foreign strategyData the script would fail on nil arithmetic;
          -- that shape is unreachable because a deployment binds one strategy.
      | none => bucketSize
    else bucketSize
  if tokens0 ≥ 1 then
    { s with
      count := s.count + 1
      deferred := false
      scheduledSendAt := 0
      strategyData := .tokenBucket (tokens0 - 1) now }
  else
    let timeToNextTokenMs := (1 - tokens0) * (1000 / refillRate)
    { s with
      outcome := .deferred
      deferred := true
      scheduledSendAt := now + max timeToNextTokenMs 1
      strategyData := .tokenBucket tokens0 now }

/-- The `sliding-window` arm of the track script. -/
def redisSlidingWindowArm (limit windowSize deferInterval now : ℚ) (isNew : Bool)
    (existing : Option RedisHash) (s : RArmState) : RArmState :=
  let state0 :=
    if !isNew then
      match existing with
      | some h =>
          match h.strategyData with
          | .slidingWindow c p w => (c, p, w)
          | _ => ((0 : ℚ), (0 : ℚ), now)
      | none => ((0 : ℚ), (0 : ℚ), now)
    else ((0 : ℚ), (0 : ℚ), now)
  let elapsed := now - state0.2.2
  let slid :=
    if elapsed ≥ windowSize then
      ((0 : ℚ),
       if elapsed ≥ windowSize * 2 then (0 : ℚ) else state0.1,
       now - luaMod elapsed windowSize)
    else state0
  let currentCount := slid.1
  let previousCount := slid.2.1
  let windowStart := slid.2.2
  let weight := (windowSize - (now - windowStart)) / windowSize
  let estimatedCount := currentCount + previousCount * weight
  if estimatedCount < limit then
    { s with
      count := ((estimatedCount + 1).floor : ℚ)
      deferred := false
      scheduledSendAt := 0
      strategyData := .slidingWindow (currentCount + 1) previousCount windowStart }
  else
    { s with
      outcome := .deferred
      deferred := true
      scheduledSendAt := now + deferInterval
      strategyData := .slidingWindow currentCount previousCount windowStart }

/-- The server-side atomic track script of the distributed adapter. -/
def redisTrack (st : RedisState) (key category id details detailsHash : String)
    (now expireTime maxKeys : ℚ) (strategyType : StrategyType)
    (sParam1 sParam2 sParam3 : ℚ) (initialConfig : String) :
    RTrackReturn × RedisState :=
  let existing := mapGet st.records key
  let isExpired :=
    match existing with
    | some h => decide (now > h.expiresAt)
    | none => false
  let detailsChanged :=
    match existing with
    | some h => h.detailsHash != detailsHash
    | none => false
  let isNew := existing.isNone || isExpired || detailsChanged
  if isNew && decide (0 < maxKeys) && decide (maxKeys ≤ st.size) &&
      !(mapHas st.records key) then
    (.limitReached, st)
  else
    let size1 := if isNew && !(mapHas st.records key) then st.size + 1 else st.size
    let s0 : RArmState :=
      { outcome := .immediate
        count := if isNew then 0 else (match existing with | some h => h.count | none => 0)
        deferred := !isNew && (match existing with | some h => h.deferred | none => false)
        scheduledSendAt :=
          if !isNew then (match existing with | some h => h.scheduledSendAt | none => 0) else 0
        strategyData := .empty }
    let s :=
      match strategyType with
      | .simple => redisSimpleArm sParam1 sParam2 now s0
      | .tokenBucket => redisTokenBucketArm sParam1 sParam2 now isNew existing s0
      | .slidingWindow => redisSlidingWindowArm sParam1 sParam2 sParam3 now isNew existing s0
    let expiresAt := now + expireTime
    let config :=
      if isNew then initialConfig
      else (match existing with | some h => h.config | none => initialConfig)
    let newHash : RedisHash :=
      { key := key, category := category, id := id, details := details,
        detailsHash := detailsHash, count := s.count, lastEventTime := now,
        expiresAt := expiresAt, deferred := s.deferred,
        scheduledSendAt := s.scheduledSendAt, strategyData := s.strategyData,
        config := config }
    let records1 := mapSet st.records key newHash
    let ttl1 := zadd st.ttlSeconds ((expiresAt / 1000).ceil : ℚ) key
    let deferredSet1 :=
      if s.deferred then zadd st.deferredSet s.scheduledSendAt key
      else zrem st.deferredSet key
    (.tracked s.outcome s.count s.scheduledSendAt expiresAt config s.strategyData,
     { records := records1, size := size1, deferredSet := deferredSet1, ttlSeconds := ttl1 })

/-- Recogniser for `process_failed` notifications. -/
def isProcessFailed : Notif → Bool
  | .processFailed _ _ => true
  | _ => false

/-! ## Concrete scenario values used by witnesses and counterexamples -/

/-- A tracker configuration for concrete scenarios. -/
def gBase : TrackerConfig := { limit := 5, deferInterval := 100, expireTime := 200, maxKeys := 0 }

/-- An event with details payload a. -/
def evA : EventData := { category := "c", id := "1", details := "a", detailsHash := "a" }

/-- The same identity with a changed details payload. -/
def evB : EventData := { category := "c", id := "1", details := "b", detailsHash := "b" }

/-- An active (not deferred, unexpired at times below 100) simple-counter record. -/
def rSimpleActive : EventRecord :=
  { key := "c:1", category := "c", id := "1", details := "a", detailsHash := "a",
    count := 2, lastEventTime := 0, expiresAt := 100, deferred := false,
    scheduledSendAt := none, config := { limit := 5, deferInterval := 100 },
    strategyData := .empty }

/-- A deferred simple-counter record. -/
def rSimpleDeferred : EventRecord :=
  { rSimpleActive with count := 6, deferred := true, scheduledSendAt := some 60 }

/-- A deferred simple-counter hash in the distributed store. -/
def hSimpleDeferred : RedisHash :=
  { key := "c:1", category := "c", id := "1", details := "a", detailsHash := "a",
    count := 6, lastEventTime := 0, expiresAt := 100, deferred := true,
    scheduledSendAt := 60, strategyData := .empty, config := "cfg" }

/-- A distributed store holding the deferred hash. -/
def redisStateDeferred : RedisState :=
  { records := [("c:1", hSimpleDeferred)], size := 1,
    deferredSet := [("c:1", 60)], ttlSeconds := [("c:1", 1)] }

/-- A token-bucket record with 1/2 token left and refill rate 2 tokens/s. -/
def rTokenBucket : EventRecord :=
  { key := "c:1", category := "c", id := "1", details := "a", detailsHash := "a",
    count := 3, lastEventTime := 0, expiresAt := 100, deferred := false,
    scheduledSendAt := none,
    config := { bucketSize := 10, refillRate := 2, deferInterval := 100 },
    strategyData := .tokenBucket (1/2) 0 }

/-! ## Map lemmas -/

theorem mapGet_eq_none_of_not_has {α : Type} (m : List (String × α)) (k : String)
    (h : mapHas m k = false) : mapGet m k = none := by
  simp only [mapHas, List.any_eq_false] at h
  have hf : List.find? (fun p => p.1 == k) m = none := List.find?_eq_none.mpr h
  simp [mapGet, hf]

theorem mapGet_mapSet_self {α : Type} (m : List (String × α)) (k : String) (v : α) :
    mapGet (mapSet m k v) k = some v := by
  induction m with
  | nil => simp [mapGet, mapSet, mapHas, List.find?]
  | cons p t ih =>
      by_cases hpk : (p.1 == k) = true
      · have hhas : mapHas (p :: t) k = true := by simp [mapHas]; exact .inl (eq_of_beq hpk)
        have hfp : (if (p.1 == k) = true then (k, v) else p) = (k, v) := by simp [hpk]
        simp only [mapSet, hhas, if_true, List.map_cons, hfp]
        simp [mapGet, List.find?]
      · have hhas : mapHas (p :: t) k = mapHas t k := by simp [mapHas, hpk]
        have hset : mapSet (p :: t) k v = p :: mapSet t k v := by
          by_cases ht : mapHas t k = true
          · have h1 : mapHas (p :: t) k = true := by rw [hhas]; exact ht
            have hfp : (if (p.1 == k) = true then (k, v) else p) = p := by simp [hpk]
            simp only [mapSet, h1, ht, if_true, List.map_cons, hfp]
          · have h1 : mapHas (p :: t) k = false := by rw [hhas]; simpa using ht
            have ht2 : mapHas t k = false := by simpa using ht
            simp [mapSet, h1, ht2]
        rw [hset]
        have hstep : mapGet (p :: mapSet t k v) k = mapGet (mapSet t k v) k := by
          simp [mapGet, List.find?, hpk]
        rw [hstep, ih]

theorem mapGet_filter_keys_eq_none (m : EventMap) (ks : List String) (k : String)
    (h : k ∈ ks) :
    mapGet (m.filter (fun p => !(ks.contains p.1))) k = none := by
  induction m with
  | nil => simp [mapGet]
  | cons p t ih =>
      by_cases hc : p.1 ∈ ks
      · simpa [List.filter_cons, hc] using ih
      · have hpk : (p.1 == k) = false := by
          refine beq_eq_false_iff_ne.mpr ?_
          intro he
          exact hc (he ▸ h)
        have hstep :
            (p :: t).filter (fun q => !(ks.contains q.1)) =
              p :: t.filter (fun q => !(ks.contains q.1)) := by
          simp [List.filter_cons, hc]
        rw [hstep]
        simpa [mapGet, List.find?, hpk] using ih

theorem mapHas_eq_true_of_get {α : Type} (m : List (String × α)) (k : String) (v : α)
    (h : mapGet m k = some v) : mapHas m k = true := by
  simp only [mapGet, Option.map_eq_some'] at h
  obtain ⟨p, hp, _⟩ := h
  have hmem := List.mem_of_find?_eq_some hp
  have hbeq := List.find?_some hp
  simp only [mapHas, List.any_eq_true]
  exact ⟨p, hmem, hbeq⟩

/-! ## Strategy creation lemmas -/

theorem simpleCounterTrack_new_count (g : TrackerConfig) (ev : EventData)
    (key : String) (now : ℚ) : ((simpleCounterTrack g none ev key now).2).count = 1 := by
  simp only [simpleCounterTrack, createBaseRecord]
  split <;> rfl

theorem tokenBucketTrack_new_count (opts : TokenBucketOptions) (g : TrackerConfig)
    (ev : EventData) (key : String) (now : ℚ) :
    ((tokenBucketTrack opts g none ev key now).2).count = 1 := by
  simp [tokenBucketTrack, createBaseRecord]

theorem slidingWindowTrack_new_count (opts : SlidingWindowOptions) (g : TrackerConfig)
    (ev : EventData) (key : String) (now : ℚ) :
    ((slidingWindowTrack opts g none ev key now).2).count = 1 := by
  simp [slidingWindowTrack, createBaseRecord]

/-! ## Claim theorems -/

/-- C1: With the simple counter strategy configured with limit=2,
deferInterval=100 and expireTime=200, tracking four events with the same
category, id and details yields outcomes immediate, immediate, deferred,
ignored (reason already_deferred) in that order, with stored counts
1, 2, 3, 3. -/
theorem simple_counter_defers_after_limit :
    (let g : TrackerConfig := { limit := 2, deferInterval := 100, expireTime := 200, maxKeys := 0 };
     let t1 := trackEventRun simpleCounterTrack g { events := [], deferredKeys := [] }
       "auth" "login_fail" "d" 0;
     let t2 := trackEventRun simpleCounterTrack g t1.2 "auth" "login_fail" "d" 1;
     let t3 := trackEventRun simpleCounterTrack g t2.2 "auth" "login_fail" "d" 2;
     let t4 := trackEventRun simpleCounterTrack g t3.2 "auth" "login_fail" "d" 3;
     t1.1.type = .immediate ∧ t2.1.type = .immediate ∧ t3.1.type = .deferred ∧
       t4.1.type = .ignored ∧ t4.1.reason = some .alreadyDeferred ∧
       (mapGet t1.2.events "auth:login_fail").map EventRecord.count = some 1 ∧
       (mapGet t2.2.events "auth:login_fail").map EventRecord.count = some 2 ∧
       (mapGet t3.2.events "auth:login_fail").map EventRecord.count = some 3 ∧
       (mapGet t4.2.events "auth:login_fail").map EventRecord.count = some 3) := by
  with_unfolding_all decide

/-- C3: In track, a prior record is treated as absent — forcing
reinitialization with count = 1 — exactly when now > expiresAt or the stored
detailsHash differs from the incoming event's detailsHash; in particular,
changing details on an active identity resets count to 1 (under each of the
three strategies). -/
theorem track_freshness_rule (st : Store) (key : String) (ev : EventData) (now : ℚ)
    (r : EventRecord) (h : mapGet st.events key = some r) :
    (freshPrior (mapGet st.events key) ev.detailsHash now = none ↔
      (now > r.expiresAt ∨ r.detailsHash ≠ ev.detailsHash)) ∧
    ((now > r.expiresAt ∨ r.detailsHash ≠ ev.detailsHash) →
      ∀ (g : TrackerConfig) (tb : TokenBucketOptions) (sw : SlidingWindowOptions),
        ((inMemoryTrack simpleCounterTrack g st key ev now).1.record).map
            EventRecord.count = some 1 ∧
        ((inMemoryTrack (tokenBucketTrack tb) g st key ev now).1.record).map
            EventRecord.count = some 1 ∧
        ((inMemoryTrack (slidingWindowTrack sw) g st key ev now).1.record).map
            EventRecord.count = some 1) := by
  have hhas : mapHas st.events key = true := mapHas_eq_true_of_get _ _ _ h
  constructor
  · rw [h]
    simp only [freshPrior]
    by_cases hc : now > r.expiresAt ∨ r.detailsHash ≠ ev.detailsHash
    · have : (decide (now > r.expiresAt) || (r.detailsHash != ev.detailsHash)) = true := by
        simpa using hc
      simp [this, hc]
    · have : (decide (now > r.expiresAt) || (r.detailsHash != ev.detailsHash)) = false := by
        simpa using hc
      simp [this, hc]
  · intro hc g tb sw
    have hfresh : freshPrior (mapGet st.events key) ev.detailsHash now = none := by
      rw [h]
      simp only [freshPrior]
      have : (decide (now > r.expiresAt) || (r.detailsHash != ev.detailsHash)) = true := by
        simpa using hc
      simp [this]
    refine ⟨?_, ?_, ?_⟩ <;>
    · simp only [inMemoryTrack, hfresh, hhas]
      simp [simpleCounterTrack_new_count, tokenBucketTrack_new_count,
            slidingWindowTrack_new_count]

/-- Witness for C3: tracking a changed-details event against an active stored
record yields a reinitialised record with count 1. -/
theorem track_freshness_rule_witness :
    ((inMemoryTrack simpleCounterTrack gBase
        { events := [("c:1", rSimpleActive)], deferredKeys := [] } "c:1" evB 50).1.record).map
      EventRecord.count = some 1 :=
  ((track_freshness_rule { events := [("c:1", rSimpleActive)], deferredKeys := [] }
      "c:1" evB 50 rSimpleActive (by with_unfolding_all decide)).2
    (by with_unfolding_all decide) gBase {} {}).1

/-- C2 counterexample: the sliding-window strategy has no already-deferred
fast path.  Tracking a third event against a record it has just deferred
yields outcome deferred (not ignored) and rewrites lastEventTime. -/
theorem sliding_window_deferred_not_ignored :
    (let sw : SlidingWindowOptions := { limit := 1, windowSize := 1000 };
     let d1 := slidingWindowTrack sw gBase none evA "c:1" 0;
     let d2 := slidingWindowTrack sw gBase (some d1.2) evA "c:1" 1;
     let d3 := slidingWindowTrack sw gBase (some d2.2) evA "c:1" 2;
     d2.1 = .deferred ∧ d2.2.deferred = true ∧
       d3.1 = .deferred ∧ d3.1 ≠ .ignored ∧
       d3.2.lastEventTime = 2 ∧ d2.2.lastEventTime = 1) := by
  with_unfolding_all decide

/-- C2 (amended): For the simple counter strategy, tracking an event against
an already-deferred record refreshes expiresAt, leaves count unchanged and
yields outcome ignored; lastEventTime is also unchanged in the in-process
strategy, while the distributed track script rewrites lastEventTime to now. -/
theorem simple_counter_already_deferred_frame
    (g : TrackerConfig) (r : EventRecord) (ev : EventData) (key : String) (now : ℚ)
    (hdef : r.deferred = true) :
    simpleCounterTrack g (some r) ev key now =
      (.ignored, { r with expiresAt := now + g.expireTime }) ∧
    (∀ (st : RedisState) (h : RedisHash) (rkey category id details detailsHash : String)
        (expireTime maxKeys sParam1 sParam2 sParam3 : ℚ) (initialConfig : String),
      mapGet st.records rkey = some h → ¬(now > h.expiresAt) →
      h.detailsHash = detailsHash → h.deferred = true →
      (redisTrack st rkey category id details detailsHash now expireTime maxKeys
          .simple sParam1 sParam2 sParam3 initialConfig).1 =
        .tracked .ignored h.count h.scheduledSendAt (now + expireTime) h.config .empty ∧
      mapGet (redisTrack st rkey category id details detailsHash now expireTime maxKeys
          .simple sParam1 sParam2 sParam3 initialConfig).2.records rkey =
        some { key := rkey, category := category, id := id, details := details,
               detailsHash := detailsHash, count := h.count, lastEventTime := now,
               expiresAt := now + expireTime, deferred := true,
               scheduledSendAt := h.scheduledSendAt, strategyData := .empty,
               config := h.config }) := by
  constructor
  · simp [simpleCounterTrack, hdef]
  · intro st h rkey category id details detailsHash expireTime maxKeys s1 s2 s3 cfg
      hget hexp hhash hdef2
    have hexpb : decide (now > h.expiresAt) = false := by simpa using hexp
    have hhashb : (h.detailsHash != detailsHash) = false := by
      simp [hhash]
    simp [redisTrack, hget, hexpb, hhashb, redisSimpleArm, hdef2, mapGet_mapSet_self]

/-- Witness for C2 (amended): a deferred simple-counter record is ignored
with count unchanged in both paths. -/
theorem simple_counter_already_deferred_frame_witness :
    simpleCounterTrack gBase (some rSimpleDeferred) evA "c:1" 50 =
      (.ignored, { rSimpleDeferred with expiresAt := 50 + gBase.expireTime }) ∧
    (redisTrack redisStateDeferred "c:1" "c" "1" "a" "a" 50 200 0 .simple 5 100 0 "cfg").1 =
      .tracked .ignored hSimpleDeferred.count hSimpleDeferred.scheduledSendAt (50 + 200)
        hSimpleDeferred.config .empty := by
  obtain ⟨h1, h2⟩ := simple_counter_already_deferred_frame gBase rSimpleDeferred evA "c:1" 50
    (by with_unfolding_all decide)
  exact ⟨h1, (h2 redisStateDeferred hSimpleDeferred "c:1" "c" "1" "a" "a" 200 0 5 100 0 "cfg"
    (by with_unfolding_all decide) (by with_unfolding_all decide)
    (by with_unfolding_all decide) (by with_unfolding_all decide)).1⟩

/-- C6 counterexample: under the sliding-window strategy the stored count can
decrease across accepted (immediate) events within one record lifetime — it
goes 2 at t=1 and back to 1 at t=2500 after the window slides. -/
theorem sliding_window_count_decreases :
    (let sw : SlidingWindowOptions := { limit := 10, windowSize := 1000 };
     let g : TrackerConfig :=
       { limit := 5, deferInterval := 500, expireTime := 1000000, maxKeys := 0 };
     let w1 := slidingWindowTrack sw g none evA "c:1" 0;
     let w2 := slidingWindowTrack sw g (some w1.2) evA "c:1" 1;
     let w3 := slidingWindowTrack sw g (some w2.2) evA "c:1" 2500;
     w1.1 = .immediate ∧ w2.1 = .immediate ∧ w3.1 = .immediate ∧
       w2.2.count = 2 ∧ w3.2.count = 1 ∧ w3.2.count < w2.2.count) := by
  with_unfolding_all decide

/-- C6 (amended): under the simple counter and token bucket strategies the
stored count is monotonically non-decreasing across events within one record
lifetime (every tracked event on an existing record keeps or increments it). -/
theorem count_monotone_simple_and_token_bucket (g : TrackerConfig) (r : EventRecord)
    (ev : EventData) (key : String) (now : ℚ) (tb : TokenBucketOptions) :
    r.count ≤ ((simpleCounterTrack g (some r) ev key now).2).count ∧
    r.count ≤ ((tokenBucketTrack tb g (some r) ev key now).2).count := by
  constructor
  · simp only [simpleCounterTrack]
    by_cases hd : r.deferred
    · simp [hd]
    · simp only [hd, Bool.false_eq_true, if_false]
      split
      · simp
      · simp
  · simp only [tokenBucketTrack]
    match hsd : r.strategyData with
    | .tokenBucket tokens lastRefill =>
        simp only []
        split
        · simp
        · simp
    | .empty => simp
    | .slidingWindow a b c => simp

/-- C5 counterexample: a prior record being reinitialized to new (details
changed) while the live size is at least maxKeys > 0 is NOT rejected: track
proceeds and returns immediate with a fresh count-1 record, because both
adapters additionally require the key itself to be absent. -/
theorem maxkeys_reinit_in_place_not_limited :
    (let g : TrackerConfig :=
       { limit := 5, deferInterval := 100, expireTime := 200, maxKeys := 1 };
     let st : Store := { events := [("c:1", rSimpleActive)], deferredKeys := [] };
     let res := inMemoryTrack simpleCounterTrack g st "c:1" evB 50;
     freshPrior (mapGet st.events "c:1") evB.detailsHash 50 = none ∧
       (0:ℚ) < g.maxKeys ∧ g.maxKeys ≤ (st.events.length : ℚ) ∧
       res.1.outcome = .immediate ∧ res.1.reason = none ∧
       (res.1.record).map EventRecord.count = some 1) := by
  with_unfolding_all decide

/-- C5 (amended): track returns ignored with reason key_limit_reached, a null
record and unchanged state exactly in the absent-key case: when no record is
stored under the key (so the freshness rule yields none) and the live size is
at least maxKeys > 0.  When the key is present — in particular when its
record is merely being reinitialized — neither the in-process adapter nor the
distributed script ever reports the key limit. -/
theorem maxkeys_requires_absent_key (strat : Strategy) (g : TrackerConfig) (st : Store)
    (key : String) (ev : EventData) (now : ℚ) :
    (freshPrior (mapGet st.events key) ev.detailsHash now = none →
      mapHas st.events key = false → 0 < g.maxKeys →
      g.maxKeys ≤ (st.events.length : ℚ) →
      inMemoryTrack strat g st key ev now =
        ({ outcome := .ignored, record := none, reason := some .keyLimitReached }, st)) ∧
    (mapHas st.events key = true →
      (inMemoryTrack strat g st key ev now).1.reason ≠ some .keyLimitReached) ∧
    (∀ (st2 : RedisState) (rkey category id details detailsHash : String)
        (expireTime maxKeys s1 s2 s3 : ℚ) (stype : StrategyType) (cfg : String),
      mapHas st2.records rkey = true →
      (redisTrack st2 rkey category id details detailsHash now expireTime maxKeys
          stype s1 s2 s3 cfg).1 ≠ .limitReached) := by
  refine ⟨?_, ?_, ?_⟩
  · intro hfresh hhas hpos hsz
    have h1 : decide (0 < g.maxKeys) = true := by simpa using hpos
    have h2 : decide (g.maxKeys ≤ (st.events.length : ℚ)) = true := by simpa using hsz
    simp [inMemoryTrack, hfresh, hhas, h1, h2]
  · intro hhas
    simp [inMemoryTrack, hhas]
  · intro st2 rkey category id details detailsHash expireTime maxKeys s1 s2 s3 stype cfg hhas
    simp only [redisTrack, hhas]
    simp

/-- Witness for C5 (amended): with one live record and maxKeys = 1, an event
for an absent key is ignored with reason key_limit_reached and a null record,
and the store is unchanged. -/
theorem maxkeys_requires_absent_key_witness :
    inMemoryTrack simpleCounterTrack
        { limit := 5, deferInterval := 100, expireTime := 200, maxKeys := 1 }
        { events := [("x:9", rSimpleActive)], deferredKeys := [] } "c:1" evA 50 =
      ({ outcome := .ignored, record := none, reason := some .keyLimitReached },
       { events := [("x:9", rSimpleActive)], deferredKeys := [] }) :=
  (maxkeys_requires_absent_key simpleCounterTrack
      { limit := 5, deferInterval := 100, expireTime := 200, maxKeys := 1 }
      { events := [("x:9", rSimpleActive)], deferredKeys := [] } "c:1" evA 50).1
    (by with_unfolding_all decide) (by with_unfolding_all decide)
    (by with_unfolding_all decide) (by with_unfolding_all decide)

/-- C4: Token bucket on an existing record: after time-based refill, if
tokens ≥ 1 the event consumes one token, increments count, sets
deferred = false, clears scheduledSendAt and returns immediate (a successful
event clears any previously deferred state); otherwise it sets
deferred = true with scheduledSendAt = now + max(1, (1 − tokens) · (1000 /
refillRate)), refreshes lastEventTime and expiresAt, and returns deferred. -/
theorem token_bucket_existing_record (opts : TokenBucketOptions) (g : TrackerConfig)
    (r : EventRecord) (ev : EventData) (key : String) (now tokens lastRefill : ℚ)
    (hsd : r.strategyData = .tokenBucket tokens lastRefill)
    (hrate : 0 < r.config.refillRate) :
    (1 ≤ min r.config.bucketSize
        (tokens + ((now - lastRefill) / 1000) * r.config.refillRate) →
      tokenBucketTrack opts g (some r) ev key now =
        (.immediate,
         { r with
           strategyData := .tokenBucket
             (min r.config.bucketSize
               (tokens + ((now - lastRefill) / 1000) * r.config.refillRate) - 1) now
           count := r.count + 1
           lastEventTime := now
           expiresAt := now + g.expireTime
           deferred := false
           scheduledSendAt := none })) ∧
    (min r.config.bucketSize
        (tokens + ((now - lastRefill) / 1000) * r.config.refillRate) < 1 →
      tokenBucketTrack opts g (some r) ev key now =
        (.deferred,
         { r with
           strategyData := .tokenBucket
             (min r.config.bucketSize
               (tokens + ((now - lastRefill) / 1000) * r.config.refillRate)) now
           deferred := true
           lastEventTime := now
           expiresAt := now + g.expireTime
           scheduledSendAt := some (now + max 1
             ((1 - min r.config.bucketSize
                 (tokens + ((now - lastRefill) / 1000) * r.config.refillRate)) *
               (1000 / r.config.refillRate))) })) := by
  constructor
  · intro hge
    simp only [tokenBucketTrack, hsd]
    rw [if_pos hge]
  · intro hlt
    have hnot : ¬ (1 ≤ min r.config.bucketSize
        (tokens + ((now - lastRefill) / 1000) * r.config.refillRate)) := not_le.mpr hlt
    simp only [tokenBucketTrack, hsd]
    rw [if_neg hnot, max_comm]

/-- Witness for C4: a bucket with half a token refills to 1.5 tokens after
500 ms at 2 tokens/s and accepts the event immediately. -/
theorem token_bucket_existing_record_witness :
    tokenBucketTrack {} gBase (some rTokenBucket) evA "c:1" 500 =
      (.immediate,
       { rTokenBucket with
         strategyData := .tokenBucket
           (min rTokenBucket.config.bucketSize
             (1/2 + ((500 - 0) / 1000) * rTokenBucket.config.refillRate) - 1) 500
         count := rTokenBucket.count + 1
         lastEventTime := 500
         expiresAt := 500 + gBase.expireTime
         deferred := false
         scheduledSendAt := none }) :=
  (token_bucket_existing_record {} gBase rTokenBucket evA "c:1" 500 (1/2) 0
    (by with_unfolding_all decide) (by with_unfolding_all decide)).1
    (by with_unfolding_all decide)

/-- Closed form of the retry loop when the processor fails on every attempt:
before each of the maxRetries retries, a retry notification and a sleep with
exponentially growing delay; then the failure notifications. -/
theorem retryLoop_always_fails (maxRetries : Nat) (retryDelay : ℚ)
    (dueEvents : List EventRecord) :
    ∀ (fuel attempt : Nat), attempt + fuel = maxRetries + 1 →
      retryLoop (fun _ => false) maxRetries retryDelay dueEvents attempt fuel =
        ((List.range' attempt (fuel - 1)).bind fun k =>
          [.retry (k + 1) maxRetries (retryDelay * 2 ^ k) dueEvents,
           .sleep (retryDelay * 2 ^ k)]) ++
        [.processFailed dueEvents (maxRetries + 1), .errorNote] := by
  intro fuel
  induction fuel with
  | zero =>
      intro attempt h
      simp [retryLoop]
  | succ n ih =>
      intro attempt h
      simp only [retryLoop, Bool.false_eq_true, if_false]
      by_cases hlt : attempt < maxRetries
      · rw [if_pos hlt, ih (attempt + 1) (by omega)]
        obtain ⟨m, rfl⟩ : ∃ m, n = m + 1 := ⟨n - 1, by omega⟩
        rw [Nat.succ_sub_one, Nat.succ_sub_one, List.range'_succ]
        simp
      · rw [if_neg hlt]
        have hn : n = 0 := by omega
        subst hn
        simp

/-- C7: When a configured processor throws on a non-empty popped batch, the
engine retries up to maxRetries times, with delay retryDelay * 2 ^ k before
retry k (0-indexed) and a retry notification emitted before each sleep; after
the final failure it emits exactly one process_failed notification carrying
the error context with attempts = maxRetries + 1, followed by an error
notification, and the popped events remain removed from storage. -/
theorem process_failed_after_retries (maxRetries : Nat) (retryDelay : ℚ)
    (st : Store) (now : ℚ)
    (hne : (popDueDeferred st now).1 ≠ []) :
    processDeferredEvents (some (fun _ => false)) maxRetries retryDelay st now =
      (((List.range' 0 maxRetries).bind fun k =>
          [.retry (k + 1) maxRetries (retryDelay * 2 ^ k) (popDueDeferred st now).1,
           .sleep (retryDelay * 2 ^ k)]) ++
        [.processFailed (popDueDeferred st now).1 (maxRetries + 1), .errorNote],
       (popDueDeferred st now).1, (popDueDeferred st now).2) ∧
    (processDeferredEvents (some (fun _ => false)) maxRetries retryDelay st now).1.countP
        isProcessFailed = 1 ∧
    ∀ k ∈ dueKeys st now,
      mapGet (processDeferredEvents (some (fun _ => false)) maxRetries retryDelay st
          now).2.2.events k = none := by
  have hempty : (popDueDeferred st now).1.isEmpty = false := by
    simpa [List.isEmpty_iff] using hne
  have hmain : processDeferredEvents (some (fun _ => false)) maxRetries retryDelay st now =
      (((List.range' 0 maxRetries).bind fun k =>
          [.retry (k + 1) maxRetries (retryDelay * 2 ^ k) (popDueDeferred st now).1,
           .sleep (retryDelay * 2 ^ k)]) ++
        [.processFailed (popDueDeferred st now).1 (maxRetries + 1), .errorNote],
       (popDueDeferred st now).1, (popDueDeferred st now).2) := by
    simp only [processDeferredEvents, hempty, Bool.false_eq_true, if_false]
    rw [retryLoop_always_fails maxRetries retryDelay (popDueDeferred st now).1
      (maxRetries + 1) 0 (by omega)]
    simp
  refine ⟨hmain, ?_, ?_⟩
  · rw [hmain]
    simp only [List.countP_append]
    have h0 : ((List.range' 0 maxRetries).bind fun k =>
        [Notif.retry (k + 1) maxRetries (retryDelay * 2 ^ k) (popDueDeferred st now).1,
         Notif.sleep (retryDelay * 2 ^ k)]).countP isProcessFailed = 0 := by
      rw [List.countP_eq_zero]
      intro a ha
      simp only [List.mem_bind, List.mem_cons, List.mem_singleton] at ha
      obtain ⟨k, _, hk⟩ := ha
      rcases hk with h1 | h1 | h1
      · subst h1; simp [isProcessFailed]
      · subst h1; simp [isProcessFailed]
      · exact absurd h1 (List.not_mem_nil a)
    rw [h0]
    simp [isProcessFailed]
  · intro k hk
    rw [hmain]
    show mapGet (popDueDeferred st now).2.events k = none
    simp only [popDueDeferred]
    exact mapGet_filter_keys_eq_none st.events (dueKeys st now) k hk

/-- Witness for C7: one due deferred record, maxRetries = 2, retryDelay = 10;
the trace holds exactly one process_failed and the record is gone. -/
theorem process_failed_after_retries_witness :
    (processDeferredEvents (some (fun _ => false)) 2 10
        { events := [("c:1", rSimpleDeferred)], deferredKeys := ["c:1"] } 100).1.countP
      isProcessFailed = 1 ∧
    mapGet (processDeferredEvents (some (fun _ => false)) 2 10
        { events := [("c:1", rSimpleDeferred)], deferredKeys := ["c:1"] } 100).2.2.events
      "c:1" = none :=
  ⟨(process_failed_after_retries 2 10
      { events := [("c:1", rSimpleDeferred)], deferredKeys := ["c:1"] } 100
      (by with_unfolding_all decide)).2.1,
   (process_failed_after_retries 2 10
      { events := [("c:1", rSimpleDeferred)], deferredKeys := ["c:1"] } 100
      (by with_unfolding_all decide)).2.2 "c:1" (by with_unfolding_all decide)⟩

/-- C8 counterexample: positive Infinity is of JavaScript type number, is not
NaN and is not negative, so _validateConfig accepts it: finiteness is not
validated. -/
theorem validate_config_accepts_infinity :
    validateConfig { processingInterval := .num .posInf } = none ∧
    validateConfig { expireTime := .num .posInf } = none := by
  with_unfolding_all decide

/-- A none result of `Option.orElse` means both alternatives are none. -/
theorem orElse_none_iff {α : Type} (a : Option α) (f : Unit → Option α) :
    (a.orElse f = none) ↔ (a = none ∧ f () = none) := by
  cases a <;> simp [Option.orElse]

/-- C8 (amended): the constructor validates every supplied numeric option
(limit, deferInterval, expireTime, maxKeys, processingInterval, maxRetries,
retryDelay) as a number that is not NaN and not negative — type error for
non-numbers and NaN, range error for negative values; positive infinity is
accepted, so finiteness is not enforced — and clamps the processing interval
to a minimum of 10 ms (default 10000 ms). -/
theorem validate_config_characterisation :
    (∀ v, validateField v = some .typeError ↔ v = .nonNumber ∨ v = .num .nan) ∧
    (∀ v, validateField v = some .rangeError ↔
      (∃ q, v = .num (.fin q) ∧ q < 0) ∨ v = .num .negInf) ∧
    (∀ o : EngineOptions, validateConfig o = none ↔
      (validateField o.limit = none ∧ validateField o.deferInterval = none ∧
       validateField o.expireTime = none ∧ validateField o.maxKeys = none ∧
       validateField o.processingInterval = none ∧ validateField o.maxRetries = none ∧
       validateField o.retryDelay = none)) ∧
    (∀ q : ℚ, resolveProcessingInterval (.num (.fin q)) = .fin (max 10 q) ∧
      10 ≤ max 10 q) ∧
    resolveProcessingInterval .undef = .fin 10000 := by
  refine ⟨?_, ?_, ?_, ?_, rfl⟩
  · intro v
    match v with
    | .undef => simp [validateField]
    | .nonNumber => simp [validateField]
    | .num .nan => simp [validateField]
    | .num .posInf => simp [validateField, jsNumLtZero]
    | .num .negInf => simp [validateField, jsNumLtZero]
    | .num (.fin q) =>
        by_cases hq : q < 0 <;> simp [validateField, jsNumLtZero, hq]
  · intro v
    match v with
    | .undef => simp [validateField]
    | .nonNumber => simp [validateField]
    | .num .nan => simp [validateField]
    | .num .posInf => simp [validateField, jsNumLtZero]
    | .num .negInf => simp [validateField, jsNumLtZero]
    | .num (.fin q) =>
        by_cases hq : q < 0 <;> simp [validateField, jsNumLtZero, hq]
  · intro o
    simp only [validateConfig, orElse_none_iff]
  · intro q
    exact ⟨rfl, le_max_left 10 q⟩

/-- C9 counterexample: an empty category string is rejected by trackEvent
with a plain Error, not a TypeError. -/
theorem empty_category_not_type_error :
    trackEvent simpleCounterTrack gBase { events := [], deferredKeys := [] }
        (.str "") (.str "x") "d" 0 = .error .genericError ∧
    (JSErr.genericError ≠ JSErr.typeError) :=
  ⟨by with_unfolding_all rfl, by decide⟩

/-- C9 (amended): trackEvent rejects a non-string category or id with a type
error, and rejects empty strings with a plain (generic) error. -/
theorem track_event_validation (strat : Strategy) (g : TrackerConfig) (st : Store)
    (category id : JSVal) (details : String) (now : ℚ) :
    (trackEvent strat g st category id details now = .error .typeError ↔
      (∀ s, category ≠ .str s) ∨ (∃ c, category = .str c ∧ ∀ s, id ≠ .str s)) ∧
    (trackEvent strat g st category id details now = .error .genericError ↔
      ∃ c i, category = .str c ∧ id = .str i ∧ (c = "" ∨ i = "")) := by
  match category, id with
  | .str c, .str i =>
      constructor
      · simp only [trackEvent]
        by_cases hb : c = "" ∨ i = ""
        · have : (c == "" || i == "") = true := by simpa using hb
          simp [this]
        · have : (c == "" || i == "") = false := by simpa using hb
          simp [this]
      · simp only [trackEvent]
        by_cases hb : c = "" ∨ i = ""
        · have : (c == "" || i == "") = true := by simpa using hb
          simp [this, hb]
        · have : (c == "" || i == "") = false := by simpa using hb
          simp [this, hb]
  | .str c, .num q => simp [trackEvent]
  | .str c, .boolean b => simp [trackEvent]
  | .str c, .nullV => simp [trackEvent]
  | .str c, .undefV => simp [trackEvent]
  | .num q, id => cases id <;> simp [trackEvent]
  | .boolean b, id => cases id <;> simp [trackEvent]
  | .nullV, id => cases id <;> simp [trackEvent]
  | .undefV, id => cases id <;> simp [trackEvent]

/-- C10: When trackEvent returns type ignored, the data field depends on the
cause: for an already-deferred record (no reason supplied by the adapter)
data is the updated record with its refreshed expiresAt, whereas for
key_limit_reached data is null. -/
theorem ignored_payload_shape (g : TrackerConfig) (st : Store)
    (category id details : String) (now : ℚ) :
    (∀ r, mapGet st.events (category ++ ":" ++ id) = some r →
      ¬(now > r.expiresAt) → r.detailsHash = generateDetailsHash details →
      r.deferred = true →
      (trackEventRun simpleCounterTrack g st category id details now).1 =
        { type := .ignored, reason := some .alreadyDeferred,
          data := some { r with expiresAt := now + g.expireTime } }) ∧
    (mapHas st.events (category ++ ":" ++ id) = false → 0 < g.maxKeys →
      g.maxKeys ≤ (st.events.length : ℚ) →
      (trackEventRun simpleCounterTrack g st category id details now).1 =
        { type := .ignored, reason := some .keyLimitReached, data := none }) := by
  constructor
  · intro r hget hexp hhash hdef
    have hexpb : decide (now > r.expiresAt) = false := by simpa using hexp
    have hhashb : (r.detailsHash != generateDetailsHash details) = false := by
      simp [hhash]
    simp [trackEventRun, inMemoryTrack, freshPrior, hget, hexpb, hhashb,
      simpleCounterTrack, hdef]
  · intro hhas hpos hsz
    have hget : mapGet st.events (category ++ ":" ++ id) = none :=
      mapGet_eq_none_of_not_has _ _ hhas
    have h1 : decide (0 < g.maxKeys) = true := by simpa using hpos
    have h2 : decide (g.maxKeys ≤ (st.events.length : ℚ)) = true := by simpa using hsz
    simp [trackEventRun, inMemoryTrack, freshPrior, hget, hhas, h1, h2]

/-- Witness for C10: both ignored payload shapes at concrete inputs. -/
theorem ignored_payload_shape_witness :
    (trackEventRun simpleCounterTrack gBase
        { events := [("c:1", rSimpleDeferred)], deferredKeys := ["c:1"] }
        "c" "1" "a" 50).1 =
      { type := .ignored, reason := some .alreadyDeferred,
        data := some { rSimpleDeferred with expiresAt := 50 + gBase.expireTime } } ∧
    (trackEventRun simpleCounterTrack
        { limit := 5, deferInterval := 100, expireTime := 200, maxKeys := 1 }
        { events := [("x:9", rSimpleActive)], deferredKeys := [] } "c" "1" "a" 50).1 =
      { type := .ignored, reason := some .keyLimitReached, data := none } :=
  ⟨(ignored_payload_shape gBase
      { events := [("c:1", rSimpleDeferred)], deferredKeys := ["c:1"] } "c" "1" "a" 50).1
      rSimpleDeferred (by with_unfolding_all decide) (by with_unfolding_all decide)
      (by with_unfolding_all decide) (by with_unfolding_all decide),
   (ignored_payload_shape
      { limit := 5, deferInterval := 100, expireTime := 200, maxKeys := 1 }
      { events := [("x:9", rSimpleActive)], deferredKeys := [] } "c" "1" "a" 50).2
      (by with_unfolding_all decide) (by with_unfolding_all decide)
      (by with_unfolding_all decide)⟩
